import Mathlib

/-!
Verification development for the `LocationIndexService` of the
Ambulance-Uber-Omilingual repository (file `location-index.service.ts`):
a CSV-backed spatial nearest-neighbour index with a haversine distance
metric, lazy memoized initialization, input normalization, and a
degraded linear-scan fallback.

JavaScript `number`s are idealized as real numbers; the non-finite
values (NaN, Infinity, -Infinity) are modelled explicitly by `JSNum`
exactly where the source branches on `Number.isFinite`.  Stateful code
is embedded by explicit state passing over `ProcState`.
-/

namespace LocationIndex

/-- Model of a JavaScript number at the points where the source
distinguishes finite from non-finite values (`Number.isFinite`). -/
inductive JSNum where
| nan : JSNum
| posInf : JSNum
| negInf : JSNum
| fin : ℝ → JSNum

/-- The built-in `Number.isFinite` test on the `JSNum` model. -/
def JSNum.isFinite : JSNum → Bool
| JSNum.fin _ => true
| _ => false

/-- JavaScript truncation toward zero, used by the `%` operator. -/
noncomputable def jsTrunc (x : ℝ) : ℤ :=
if 0 ≤ x then ⌊x⌋ else ⌈x⌉

/-- The JavaScript remainder operator `a % b`: the remainder carries the
sign of the dividend, i.e. `a - b * trunc (a / b)`. -/
noncomputable def jsMod (a b : ℝ) : ℝ :=
a - b * (jsTrunc (a / b) : ℝ)

/-- The built-in `Math.round` for finite arguments: `⌊x + 1/2⌋` (half-up). -/
noncomputable def jsRound (x : ℝ) : ℤ :=
⌊x + 1 / 2⌋

/-- The built-in `Math.atan2 (y, x)` for finite arguments. -/
noncomputable def jsAtan2 (y x : ℝ) : ℝ :=
if 0 < x then Real.arctan (y / x)
else if x < 0 then
  (if 0 ≤ y then Real.arctan (y / x) + Real.pi else Real.arctan (y / x) - Real.pi)
else if 0 < y then Real.pi / 2
else if y < 0 then -(Real.pi / 2)
else 0

/-- Source constant `EARTH_RADIUS_METERS = 6371000`. -/
def EARTH_RADIUS_METERS : ℝ := 6371000

/-- Source `clamp(value, min, max) = Math.min(Math.max(value, min), max)`. -/
noncomputable def clamp (value lo hi : ℝ) : ℝ :=
min (max value lo) hi

/-- Source `normalizeLng`: non-finite input maps to 0; otherwise
`((value + 180) % 360) - 180`, with a `+ 360` fix-up when the result is
below -180. -/
noncomputable def normalizeLng : JSNum → ℝ
| JSNum.fin v =>
    let normalized := jsMod (v + 180) 360 - 180
    if normalized < -180 then normalized + 360 else normalized
| _ => 0

/-- Source `toRadians(degrees) = degrees * Math.PI / 180` (local helper
inside `computeDistance`). -/
noncomputable def toRadians (degrees : ℝ) : ℝ :=
degrees * Real.pi / 180

/-- The un-rounded haversine great-circle distance in meters computed by
the body of the source `computeDistance` before its final `Math.round`;
factored out so that the ordering used by the spatial-index model can be
stated on the exact (pre-rounding) value. -/
noncomputable def greatCircleMeters (lat1 lng1 lat2 lng2 : ℝ) : ℝ :=
let deltaLat := toRadians (lat2 - lat1)
let deltaLng := toRadians (lng2 - lng1)
let a := Real.sin (deltaLat / 2) ^ 2 +
  Real.cos (toRadians lat1) * Real.cos (toRadians lat2) * Real.sin (deltaLng / 2) ^ 2
let c := 2 * jsAtan2 (Real.sqrt a) (Real.sqrt (1 - a))
EARTH_RADIUS_METERS * c

/-- Source `computeDistance`: haversine distance rounded with
`Math.round` to whole meters. -/
noncomputable def computeDistance (lat1 lng1 lat2 lng2 : ℝ) : ℤ :=
jsRound (greatCircleMeters lat1 lng1 lat2 lng2)

/-- A parsed CSV row (`CsvRow`, a `Record<string, string>`), modelled as
an association list from header names to field values. -/
def CsvRow : Type := List (String × String)

/-- Property access `row.key` on a `CsvRow` object: the value of the
first binding of that key, when present. -/
def getField (row : CsvRow) (key : String) : Option String :=
(row.find? (fun p => p.1 = key)).map Prod.snd

/-- Source interface `LocationRecord` (location.types.ts). -/
structure LocationRecord where
  id : String
  name : String
  level : Option String
  latitude : ℝ
  longitude : ℝ
  iso639P3code : Option String
  countryIds : List String
  metadata : CsvRow

/-- Source interface `NearestLocationResult`: a `LocationRecord` plus
`distanceMeters` (an integer, being the output of `Math.round`). -/
structure NearestLocationResult extends LocationRecord where
  distanceMeters : ℤ

/-- Source interface `LocationIndexStats`.  `buildDurationMs` and
`lastLoadedAt` are wall-clock values supplied by the environment, kept
as opaque naturals. -/
structure LocationIndexStats where
  sourcePath : String
  totalRows : ℕ
  indexedRows : ℕ
  skippedRows : ℕ
  buildDurationMs : ℕ
  lastLoadedAt : ℕ
  usingSpatialIndex : Bool
deriving DecidableEq

/-- The mutable fields of `LocationIndexService` between calls: the
`records` array, the spatial `index` (`index : Bool` stands for
`this.index !== null`; the KDBush instance is always built over exactly
`this.records`, so it carries no data of its own), and `stats`.
`loadingPromise` is always `null` between sequential calls and is
modelled by the trace semantics below. -/
structure ProcState where
  records : List LocationRecord
  index : Bool
  stats : Option LocationIndexStats

/-- Source `safeNumber`, parameterized by `N`, the model of the
JavaScript built-in `Number(string)` conversion composed with the
`Number.isFinite` test: `N s = some x` when `Number(s)` is the finite
value `x`, and `N s = none` when `Number(s)` is NaN or infinite. -/
def safeNumber (N : String → Option ℝ) : Option String → Option ℝ
| none => none
| some s => if s = "" then none else N s

/-- Source `parseCountryIds`: falsy (missing or empty) input gives `[]`;
otherwise split on runs of `[;,\s]`, trim, drop empty tokens. -/
def parseCountryIds (raw : Option String) : List String :=
match raw with
| none => []
| some s =>
  if s = "" then []
  else ((s.split (fun c => c = ';' || c = ',' || c.isWhitespace)).map
    (fun t => t.trim)).filter (fun t => t ≠ "")

/-- Source `toLocationRecord`: parse both coordinates with
`safeNumber`; if either fails the row is rejected (`none`); otherwise
build the record, defaulting the optional columns and keeping the whole
original row in `metadata`. -/
def toLocationRecord (N : String → Option ℝ) (row : CsvRow) : Option LocationRecord :=
match safeNumber N (getField row "latitude"), safeNumber N (getField row "longitude") with
| some latitude, some longitude =>
  some { id := (getField row "id").getD ""
         name := (getField row "name").getD ""
         level := getField row "level"
         latitude := latitude
         longitude := longitude
         iso639P3code := getField row "iso639P3code"
         countryIds := parseCountryIds (getField row "country_ids")
         metadata := row }
| _, _ => none

/-- The per-row loop of the source `buildIndex` CSV stream (`totalRows`
incremented on every data event, `skippedRows` on rejected rows, kept
rows pushed in arrival order), written as structural recursion over the
row sequence.  Returns `(rows, totalRows, skippedRows)`. -/
def loadRows (N : String → Option ℝ) : List CsvRow → List LocationRecord × ℕ × ℕ
| [] => ([], 0, 0)
| row :: rest =>
  let res := loadRows N rest
  match toLocationRecord N row with
  | none => (res.1, res.2.1 + 1, res.2.2 + 1)
  | some r => (r :: res.1, res.2.1 + 1, res.2.2)

/-- The state produced by a completed source `buildIndex` run: records
are the kept rows, `indexOk` tells whether `new KDBush(rows, ...)`
succeeded (on failure the index is set to `null` and only a warning is
logged), and `stats` is overwritten from the counters.  `csvPath`,
`elapsed` and `now` are the environment-supplied resolved path and
wall-clock values. -/
def buildIndexState (N : String → Option ℝ) (rows : List CsvRow) (csvPath : String)
    (indexOk : Bool) (elapsed now : ℕ) : ProcState :=
let res := loadRows N rows
{ records := res.1
  index := indexOk
  stats := some
    { sourcePath := csvPath
      totalRows := res.2.1
      indexedRows := res.1.length
      skippedRows := res.2.2
      buildDurationMs := elapsed
      lastLoadedAt := now
      usingSpatialIndex := indexOk } }

/-- Source `withDistance`: spread the record and annotate it with the
rounded haversine distance from the (already normalized) query point. -/
noncomputable def withDistance (record : LocationRecord) (lat lng : ℝ) : NearestLocationResult :=
{ toLocationRecord := record
  distanceMeters := computeDistance lat lng record.latitude record.longitude }

/-- The `neighbors` bound of source `findNearest`:
`Math.min(Math.max(Math.floor(limit) || 1, 1), 50)` — a floored limit of
`0` (JavaScript falsy) is replaced by `1` before clamping to `[1, 50]`. -/
noncomputable def jsNeighbors (limit : ℝ) : ℤ :=
min (max (if ⌊limit⌋ = 0 then 1 else ⌊limit⌋) 1) 50

/-- The comparator of the linear fallback,
`(a, b) => a.distanceMeters - b.distanceMeters`, as the non-strict order
used by the (stable) `Array.prototype.sort`. -/
def byDistance (a b : NearestLocationResult) : Bool :=
a.distanceMeters ≤ b.distanceMeters

/-- Source `linearNearest`: copy the records, annotate each with its
distance, stable-sort ascending by `distanceMeters`, keep the first
`limit`. -/
noncomputable def linearNearest (records : List LocationRecord) (lat lng : ℝ)
    (limit : ℕ) : List NearestLocationResult :=
((records.map (fun record => withDistance record lat lng)).mergeSort byDistance).take limit

/-- Modelled from the spec: `geokdbush.around(index, lng, lat, k)` is an
external library call (the `geokdbush` npm package is not part of this
repository); per the spec it returns "the `limit` nearest points to the
normalized coordinate by great-circle distance, in ascending distance
order".  The KDBush index is always built over exactly `records`, so the
call is modelled as the first `k` entries of `records` stably sorted by
exact (un-rounded) great-circle distance to the query point. -/
noncomputable def byExact (lat lng : ℝ) (a b : LocationRecord) : Bool :=
greatCircleMeters lat lng a.latitude a.longitude ≤
  greatCircleMeters lat lng b.latitude b.longitude

noncomputable def geokdbushAround (records : List LocationRecord) (lng lat : ℝ)
    (neighbors : ℕ) : List LocationRecord :=
(records.mergeSort (byExact lat lng)).take neighbors

/-- The query path of source `findNearest` (lines 51-66, i.e. everything
after the `ensureReady` await, which is modelled separately by the trace
semantics): empty-records early return, limit/latitude/longitude
normalization, then the tree probe or the linear fallback. -/
noncomputable def findNearestQuery (st : ProcState) (lat : ℝ) (lng : JSNum)
    (limit : ℝ) : List NearestLocationResult :=
if st.records.isEmpty then []
else
  let neighbors := (jsNeighbors limit).toNat
  let normalizedLat := clamp lat (-90) 90
  let normalizedLng := normalizeLng lng
  if st.index then
    (geokdbushAround st.records normalizedLng normalizedLat neighbors).map
      (fun record => withDistance record normalizedLat normalizedLng)
  else
    linearNearest st.records normalizedLat normalizedLng neighbors

/-- The outcome of one execution of the source `buildIndex` body as
determined by the environment: either a load-level failure (the CSV
stream or path resolution rejects: `this.records`/`this.stats` are never
written, the error propagates) or a successful parse of a row sequence. -/
inductive LoadOutcome where
| failure : LoadOutcome
| success : List CsvRow → LoadOutcome

/-- The environment of a build attempt: the `Number` conversion model,
the load outcome, the resolved CSV path, whether the KDBush constructor
succeeds, and the wall-clock readings. -/
structure BuildEnv where
  N : String → Option ℝ
  outcome : LoadOutcome
  csvPath : String
  indexOk : Bool
  elapsed : ℕ
  now : ℕ

/-- One sequential call of source `ensureReady` (equivalently
`initIndex`): a no-op when `this.records.length` is non-zero; otherwise
it runs `buildIndex` once (`loadingPromise` is created and cleared
within the call, so it is `null` again between sequential calls).
Returns the new state, the number of build attempts performed (0 or 1),
and whether the call rejected. -/
def ensureReadyStep (env : BuildEnv) (st : ProcState) : ProcState × ℕ × Bool :=
match st.records with
| _ :: _ => (st, 0, false)
| [] =>
  match env.outcome with
  | LoadOutcome.failure => (st, 1, true)
  | LoadOutcome.success rows =>
    (buildIndexState env.N rows env.csvPath env.indexOk env.elapsed env.now, 1, false)

/-- A sequence of `n` sequential `ensureReady`/`initIndex` calls against
a fixed environment; returns the final state and the total number of
build attempts. -/
def runEnsure (env : BuildEnv) : ℕ → ProcState → ProcState × ℕ
| 0, st => (st, 0)
| n + 1, st =>
  let step := ensureReadyStep env st
  let rest := runEnsure env n step.1
  (rest.1, step.2.1 + rest.2)

/-- A full source `findNearest` call including its initial
`ensureReady` await: returns the results, the post-call state, and
whether the call rejected. -/
noncomputable def findNearestFull (env : BuildEnv) (st : ProcState) (lat : ℝ)
    (lng : JSNum) (limit : ℝ) : List NearestLocationResult × ProcState × Bool :=
let step := ensureReadyStep env st
if step.2.2 then ([], step.1, true)
else (findNearestQuery step.1 lat lng limit, step.1, false)

/-- Source `getStats`: returns `this.stats` and touches nothing. -/
def getStatsST (st : ProcState) : Option LocationIndexStats × ProcState :=
(st.stats, st)

/-- The probe loop of source `resolveCsvPath`: `fs.access` each
candidate in order, returning the first accessible one. -/
def probeLoop (fsExists : String → Bool) : List String → Option String
| [] => none
| c :: rest => if fsExists c then some c else probeLoop fsExists rest

/-- The candidate list of source `resolveCsvPath`:
`[configuredPath && resolve(configuredPath), resolve(cwd, 'languoid.csv'),
resolve(cwd, '../../languoid.csv'),
resolve(__dirname, '../../../../../languoid.csv')].filter(Boolean)`.
`resolvePath` models Node's `resolve` applied to the given segments. -/
def resolveCandidates (resolvePath : List String → String) (cwd dirname : String)
    (configuredPath : Option String) : List String :=
(match configuredPath with
 | some p => if p = "" then [] else [resolvePath [p]]
 | none => []) ++
  [resolvePath [cwd, "languoid.csv"],
   resolvePath [cwd, "../../languoid.csv"],
   resolvePath [dirname, "../../../../../languoid.csv"]]

/-- Source `resolveCsvPath`: probe the candidates in order; if none is
accessible, throw an `Error` whose message interpolates
`candidates.join(', ')` — the error value is modelled as that candidate
list. -/
def resolveCsvPath (resolvePath : List String → String) (fsExists : String → Bool)
    (cwd dirname : String) (configuredPath : Option String) : Except (List String) String :=
let candidates := resolveCandidates resolvePath cwd dirname configuredPath
match probeLoop fsExists candidates with
| some c => Except.ok c
| none => Except.error candidates

/-- Modelled from the spec: the claimed distance formula, written
independently from the spec's words — `a = sin²(Δφ/2) +
cos φ1 · cos φ2 · sin²(Δλ/2)`, `d = 2·R·atan2(√a, √(1−a))` with degrees
first converted to radians and `R = 6371000`, rounded to the nearest
whole meter. -/
noncomputable def specHaversineMeters (lat1 lng1 lat2 lng2 : ℝ) : ℤ :=
let phi1 := lat1 * Real.pi / 180
let phi2 := lat2 * Real.pi / 180
let lam1 := lng1 * Real.pi / 180
let lam2 := lng2 * Real.pi / 180
let a := Real.sin ((phi2 - phi1) / 2) ^ 2 +
  Real.cos phi1 * Real.cos phi2 * Real.sin ((lam2 - lam1) / 2) ^ 2
round (2 * 6371000 * jsAtan2 (Real.sqrt a) (Real.sqrt (1 - a)))

lemma jsRound_eq_round (x : ℝ) : jsRound x = round x := by
  rw [jsRound, round_eq]

/-- The code's `computeDistance` computes exactly the spec's formula. -/
lemma computeDistance_eq_spec (lat1 lng1 lat2 lng2 : ℝ) :
    computeDistance lat1 lng1 lat2 lng2 = specHaversineMeters lat1 lng1 lat2 lng2 := by
  simp only [computeDistance, specHaversineMeters, jsRound_eq_round, greatCircleMeters,
    toRadians, EARTH_RADIUS_METERS]
  congr 1
  rw [show (lat2 - lat1) * Real.pi / 180 / 2 =
      (lat2 * Real.pi / 180 - lat1 * Real.pi / 180) / 2 from by ring,
    show (lng2 - lng1) * Real.pi / 180 / 2 =
      (lng2 * Real.pi / 180 - lng1 * Real.pi / 180) / 2 from by ring]
  ring

lemma jsMod_nonneg_lt (a b : ℝ) (ha : 0 ≤ a) (hb : 0 < b) :
    0 ≤ jsMod a b ∧ jsMod a b < b := by
  have hdiv : 0 ≤ a / b := div_nonneg ha hb.le
  rw [jsMod, jsTrunc, if_pos hdiv]
  constructor
  · have h1 : (⌊a / b⌋ : ℝ) ≤ a / b := Int.floor_le _
    have := mul_le_mul_of_nonneg_left h1 hb.le
    rw [mul_div_cancel₀ _ hb.ne'] at this
    linarith [this]
  · have h2 : a / b < (⌊a / b⌋ : ℝ) + 1 := Int.lt_floor_add_one _
    have := mul_lt_mul_of_pos_left h2 hb
    rw [mul_div_cancel₀ _ hb.ne'] at this
    linarith [this]

lemma jsMod_neg_le (a b : ℝ) (ha : a < 0) (hb : 0 < b) :
    -b < jsMod a b ∧ jsMod a b ≤ 0 := by
  have hdiv : a / b < 0 := div_neg_of_neg_of_pos ha hb
  rw [jsMod, jsTrunc, if_neg (by linarith [hdiv])]
  constructor
  · have h2 : (⌈a / b⌉ : ℝ) < a / b + 1 := Int.ceil_lt_add_one _
    have := mul_lt_mul_of_pos_left h2 hb
    rw [mul_add, mul_div_cancel₀ _ hb.ne', mul_one] at this
    linarith [this]
  · have h1 : a / b ≤ (⌈a / b⌉ : ℝ) := Int.le_ceil _
    have := mul_le_mul_of_nonneg_left h1 hb.le
    rw [mul_div_cancel₀ _ hb.ne'] at this
    linarith [this]

/-- Longitude normalization always lands in `[-180, 180)`. -/
lemma normalizeLng_mem (x : JSNum) : normalizeLng x ∈ Set.Ico (-180 : ℝ) 180 := by
  rw [Set.mem_Ico]
  cases x with
  | fin v =>
    simp only [normalizeLng]
    rcases le_or_lt 0 (v + 180) with hv | hv
    · obtain ⟨h0, h1⟩ := jsMod_nonneg_lt (v + 180) 360 hv (by norm_num)
      split_ifs with h
      · constructor <;> linarith
      · constructor <;> linarith
    · obtain ⟨h0, h1⟩ := jsMod_neg_le (v + 180) 360 (by linarith) (by norm_num)
      split_ifs with h
      · constructor <;> linarith
      · constructor <;> linarith
  | nan => simp only [normalizeLng]; norm_num
  | posInf => simp only [normalizeLng]; norm_num
  | negInf => simp only [normalizeLng]; norm_num

/-- Evaluate `jsMod a b` when the truncated quotient is a known
integer `q` with `0 ≤ a`. -/
lemma jsMod_eval_nonneg (a b : ℝ) (q : ℤ) (ha : 0 ≤ a) (hb : 0 < b)
    (h1 : (q : ℝ) * b ≤ a) (h2 : a < ((q : ℝ) + 1) * b) : jsMod a b = a - b * q := by
  have hdiv : 0 ≤ a / b := div_nonneg ha hb.le
  rw [jsMod, jsTrunc, if_pos hdiv]
  have hfloor : ⌊a / b⌋ = q := by
    rw [Int.floor_eq_iff]
    constructor
    · rw [le_div_iff₀ hb]; linarith
    · rw [div_lt_iff₀ hb]; linarith
  rw [hfloor]

lemma normalizeLng_zero : normalizeLng (JSNum.fin 0) = 0 := by
  have hm : jsMod (0 + 180) 360 = 0 + 180 - 360 * ((0 : ℤ) : ℝ) :=
    jsMod_eval_nonneg (0 + 180) 360 0 (by norm_num) (by norm_num)
      (by norm_num) (by norm_num)
  simp only [normalizeLng, hm]
  norm_num

lemma normalizeLng_190 : normalizeLng (JSNum.fin 190) = -170 := by
  have hm : jsMod (190 + 180) 360 = 190 + 180 - 360 * ((1 : ℤ) : ℝ) :=
    jsMod_eval_nonneg (190 + 180) 360 1 (by norm_num) (by norm_num)
      (by norm_num) (by norm_num)
  simp only [normalizeLng, hm]
  rw [if_neg (by norm_num)]
  norm_num

lemma normalizeLng_neg170 : normalizeLng (JSNum.fin (-170)) = -170 := by
  have hm : jsMod (-170 + 180) 360 = -170 + 180 - 360 * ((0 : ℤ) : ℝ) :=
    jsMod_eval_nonneg (-170 + 180) 360 0 (by norm_num) (by norm_num)
      (by norm_num) (by norm_num)
  simp only [normalizeLng, hm]
  rw [if_neg (by norm_num)]
  norm_num

lemma clamp_mem (v lo hi : ℝ) (h : lo ≤ hi) : clamp v lo hi ∈ Set.Icc lo hi := by
  constructor
  · exact le_min (le_max_right v lo) h
  · exact min_le_right _ _

lemma clamp_95 : clamp 95 (-90) 90 = 90 := by
  rw [clamp, max_eq_left (by norm_num : (-90 : ℝ) ≤ 95),
    min_eq_right (by norm_num : (90 : ℝ) ≤ 95)]

lemma clamp_90 : clamp 90 (-90) 90 = 90 := by
  rw [clamp, max_eq_left (by norm_num : (-90 : ℝ) ≤ 90), min_self]

lemma clamp_zero : clamp 0 (-90) 90 = 0 := by
  rw [clamp, max_eq_left (by norm_num : (-90 : ℝ) ≤ 0),
    min_eq_left (by norm_num : (0 : ℝ) ≤ 90)]

lemma jsRound_mono {x y : ℝ} (h : x ≤ y) : jsRound x ≤ jsRound y :=
  Int.floor_le_floor (by linarith)

lemma byDistance_trans : ∀ a b c : NearestLocationResult,
    byDistance a b = true → byDistance b c = true → byDistance a c = true := by
  intro a b c hab hbc
  simp only [byDistance, decide_eq_true_eq] at hab hbc ⊢
  exact le_trans hab hbc

lemma byDistance_total : ∀ a b : NearestLocationResult,
    (byDistance a b || byDistance b a) = true := by
  intro a b
  simp only [byDistance, Bool.or_eq_true, decide_eq_true_eq]
  exact le_total _ _

lemma byExact_trans (lat lng : ℝ) : ∀ a b c : LocationRecord,
    byExact lat lng a b = true → byExact lat lng b c = true → byExact lat lng a c = true := by
  intro a b c hab hbc
  simp only [byExact, decide_eq_true_eq] at hab hbc ⊢
  exact le_trans hab hbc

lemma byExact_total (lat lng : ℝ) : ∀ a b : LocationRecord,
    (byExact lat lng a b || byExact lat lng b a) = true := by
  intro a b
  simp only [byExact, Bool.or_eq_true, decide_eq_true_eq]
  exact le_total _ _

lemma findNearestQuery_nil {st : ProcState} (h : st.records = []) (lat : ℝ)
    (lng : JSNum) (limit : ℝ) : findNearestQuery st lat lng limit = [] := by
  rw [findNearestQuery, if_pos]
  rw [h]
  rfl

lemma findNearestQuery_of_ne {st : ProcState} (h : st.records ≠ []) (lat : ℝ)
    (lng : JSNum) (limit : ℝ) :
    findNearestQuery st lat lng limit =
      if st.index then
        (geokdbushAround st.records (normalizeLng lng) (clamp lat (-90) 90)
          (jsNeighbors limit).toNat).map
          (fun record => withDistance record (clamp lat (-90) 90) (normalizeLng lng))
      else
        linearNearest st.records (clamp lat (-90) 90) (normalizeLng lng)
          (jsNeighbors limit).toNat := by
  rw [findNearestQuery, if_neg]
  simp [List.isEmpty_iff, h]

/-- Every result of the query path is some stored record annotated by
`withDistance` at the normalized query point. -/
lemma findNearestQuery_mem {st : ProcState} {lat : ℝ} {lng : JSNum} {limit : ℝ}
    {r : NearestLocationResult} (h : r ∈ findNearestQuery st lat lng limit) :
    ∃ rec : LocationRecord, rec ∈ st.records ∧
      r = withDistance rec (clamp lat (-90) 90) (normalizeLng lng) := by
  by_cases hrec : st.records = []
  · rw [findNearestQuery_nil hrec] at h
    simp at h
  · rw [findNearestQuery_of_ne hrec] at h
    by_cases hidx : st.index = true
    · rw [if_pos hidx] at h
      rw [List.mem_map] at h
      obtain ⟨rec, hmem, hr⟩ := h
      refine ⟨rec, ?_, hr.symm⟩
      have h1 : rec ∈ st.records.mergeSort (byExact (clamp lat (-90) 90) (normalizeLng lng)) :=
        List.mem_of_mem_take (by simpa [geokdbushAround] using hmem)
      exact (List.mergeSort_perm _ _).mem_iff.mp h1
    · rw [if_neg hidx] at h
      rw [linearNearest] at h
      have h1 := List.mem_of_mem_take h
      have h2 := (List.mergeSort_perm _ byDistance).mem_iff.mp h1
      rw [List.mem_map] at h2
      obtain ⟨rec, hmem, hr⟩ := h2
      exact ⟨rec, hmem, hr.symm⟩

/-- Both branches of the query path return a list sorted non-decreasing
by `distanceMeters`. -/
lemma findNearestQuery_sorted (st : ProcState) (lat : ℝ) (lng : JSNum) (limit : ℝ) :
    (findNearestQuery st lat lng limit).Pairwise
      (fun a b => a.distanceMeters ≤ b.distanceMeters) := by
  by_cases hrec : st.records = []
  · rw [findNearestQuery_nil hrec]
    simp
  · rw [findNearestQuery_of_ne hrec]
    by_cases hidx : st.index = true
    · rw [if_pos hidx]
      rw [List.pairwise_map]
      have hs := @List.sorted_mergeSort _ (byExact (clamp lat (-90) 90) (normalizeLng lng))
        (byExact_trans _ _) (byExact_total _ _) st.records
      have hs' := List.Pairwise.sublist
        (List.take_sublist (jsNeighbors limit).toNat _) hs
      refine List.Pairwise.imp ?_ hs'
      intro a b hab
      simp only [byExact, decide_eq_true_eq] at hab
      simp only [withDistance, computeDistance]
      exact jsRound_mono hab
    · rw [if_neg hidx, linearNearest]
      have hs := @List.sorted_mergeSort _ byDistance
        byDistance_trans byDistance_total
        (st.records.map (fun record =>
          withDistance record (clamp lat (-90) 90) (normalizeLng lng)))
      have hs' := List.Pairwise.sublist
        (List.take_sublist (jsNeighbors limit).toNat _) hs
      refine List.Pairwise.imp ?_ hs'
      intro a b hab
      simpa only [byDistance, decide_eq_true_eq] using hab

lemma jsNeighbors_eq (limit : ℝ) : jsNeighbors limit = min (max ⌊limit⌋ 1) 50 := by
  rw [jsNeighbors]
  by_cases h : ⌊limit⌋ = 0
  · rw [if_pos h, h]
    norm_num
  · rw [if_neg h]

/-- Both branches return a `take neighbors` of a permutation of the
records, so the result length is at most
`min (jsNeighbors limit).toNat st.records.length`. -/
lemma findNearestQuery_length (st : ProcState) (lat : ℝ) (lng : JSNum) (limit : ℝ) :
    (findNearestQuery st lat lng limit).length ≤
      min (jsNeighbors limit).toNat st.records.length := by
  by_cases hrec : st.records = []
  · rw [findNearestQuery_nil hrec]
    simp
  · rw [findNearestQuery_of_ne hrec]
    by_cases hidx : st.index = true
    · rw [if_pos hidx]
      rw [List.length_map, geokdbushAround, List.length_take, List.length_mergeSort]
    · rw [if_neg hidx, linearNearest]
      rw [List.length_take, List.length_mergeSort, List.length_map]

/-- A coordinate field is rejected by `safeNumber` exactly when it is
missing, empty, or not a finite number. -/
def invalidCoordField (N : String → Option ℝ) : Option String → Prop
| none => True
| some s => s = "" ∨ N s = none

lemma safeNumber_none_iff (N : String → Option ℝ) (v : Option String) :
    safeNumber N v = none ↔ invalidCoordField N v := by
  cases v with
  | none => simp [safeNumber, invalidCoordField]
  | some s =>
    by_cases h : s = ""
    · simp [safeNumber, invalidCoordField, h]
    · simp [safeNumber, invalidCoordField, h]

lemma toLocationRecord_none_iff (N : String → Option ℝ) (row : CsvRow) :
    toLocationRecord N row = none ↔
      invalidCoordField N (getField row "latitude") ∨
        invalidCoordField N (getField row "longitude") := by
  rw [← safeNumber_none_iff, ← safeNumber_none_iff, toLocationRecord]
  rcases safeNumber N (getField row "latitude") with _ | x
  · simp
  · rcases safeNumber N (getField row "longitude") with _ | y
    · simp
    · simp

lemma loadRows_total (N : String → Option ℝ) (rows : List CsvRow) :
    (loadRows N rows).2.1 = rows.length := by
  induction rows with
  | nil => rfl
  | cons row rest ih =>
    rw [loadRows]
    rcases toLocationRecord N row with _ | r
    · simpa using ih
    · simpa using ih

lemma loadRows_balance (N : String → Option ℝ) (rows : List CsvRow) :
    (loadRows N rows).2.1 = (loadRows N rows).1.length + (loadRows N rows).2.2 := by
  induction rows with
  | nil => rfl
  | cons row rest ih =>
    rw [loadRows]
    rcases toLocationRecord N row with _ | r
    · simp only []
      omega
    · simp only [List.length_cons]
      omega

lemma loadRows_records (N : String → Option ℝ) (rows : List CsvRow) :
    (loadRows N rows).1 = rows.filterMap (toLocationRecord N) := by
  induction rows with
  | nil => rfl
  | cons row rest ih =>
    rw [loadRows, List.filterMap_cons]
    rcases toLocationRecord N row with _ | r
    · simpa using ih
    · simpa using ih

/-- A sequential `ensureReady` call on a state with loaded records is a
pure no-op. -/
lemma ensureReadyStep_of_ne {st : ProcState} (h : st.records ≠ []) (env : BuildEnv) :
    ensureReadyStep env st = (st, 0, false) := by
  obtain ⟨a, l, hal⟩ := List.exists_cons_of_ne_nil h
  rw [ensureReadyStep, hal]

lemma runEnsure_of_ne (env : BuildEnv) (n : ℕ) (st : ProcState)
    (h : st.records ≠ []) : runEnsure env n st = (st, 0) := by
  induction n with
  | zero => rfl
  | succ n ih =>
    rw [runEnsure, ensureReadyStep_of_ne h env, ih]
    rfl

lemma findNearestFull_state (env : BuildEnv) (st : ProcState) (lat : ℝ)
    (lng : JSNum) (limit : ℝ) (h : st.records ≠ []) :
    (findNearestFull env st lat lng limit).2.1 = st ∧
      (findNearestFull env st lat lng limit).2.2 = false := by
  rw [findNearestFull, ensureReadyStep_of_ne h env]
  exact ⟨rfl, rfl⟩

/-- Sorting a two-element list whose elements compare strictly
the wrong way swaps them. -/
lemma mergeSort_pair {α : Type} (le : α → α → Bool)
    (htrans : ∀ a b c : α, le a b = true → le b c = true → le a c = true)
    (htotal : ∀ a b : α, (le a b || le b a) = true)
    (x y : α) (h : le x y = false) : [x, y].mergeSort le = [y, x] := by
  have hperm := List.mergeSort_perm [x, y] le
  have hsort := List.sorted_mergeSort htrans htotal [x, y]
  have hlen : ([x, y].mergeSort le).length = 2 := by
    rw [List.length_mergeSort]
    rfl
  obtain ⟨a, b, hab⟩ := List.length_eq_two.mp hlen
  rw [hab] at hperm hsort
  have hle : le a b = true := (List.pairwise_cons.mp hsort).1 b (List.mem_cons_self _ _)
  have hamem : a ∈ [x, y] := hperm.mem_iff.mp (List.mem_cons_self _ _)
  rw [hab]
  rcases List.mem_cons.mp hamem with ha | ha
  · subst ha
    have hb : b = y := by simpa using List.perm_singleton.mp hperm.cons_inv
    subst hb
    rw [hle] at h
    exact absurd h (by simp)
  · have ha' : a = y := by simpa using ha
    have hby : [a, b].Perm [y, x] := hperm.trans (List.Perm.swap y x [])
    rw [ha'] at hby
    have hb : b = x := by simpa using List.perm_singleton.mp hby.cons_inv
    rw [ha', hb]

/-- When the rounded distances annotated on the records are pairwise
distinct, the linear fallback and the (spec-modelled) tree probe return
the same sequence. -/
lemma linear_eq_tree (records : List LocationRecord) (nlat nlng : ℝ) (k : ℕ)
    (hdist : (records.map (fun rec => withDistance rec nlat nlng)).Pairwise
      (fun a b => a.distanceMeters ≠ b.distanceMeters)) :
    linearNearest records nlat nlng k =
      (geokdbushAround records nlng nlat k).map
        (fun rec => withDistance rec nlat nlng) := by
  rw [linearNearest, geokdbushAround, List.map_take]
  congr 1
  have hsymm : ∀ {a b : NearestLocationResult},
      a.distanceMeters ≠ b.distanceMeters → b.distanceMeters ≠ a.distanceMeters :=
    fun h => h.symm
  have hpL : (records.map (fun rec => withDistance rec nlat nlng)).mergeSort byDistance
      |>.Perm (records.map (fun rec => withDistance rec nlat nlng)) :=
    List.mergeSort_perm _ _
  have hpR : ((records.mergeSort (byExact nlat nlng)).map
      (fun rec => withDistance rec nlat nlng)).Perm
      (records.map (fun rec => withDistance rec nlat nlng)) :=
    (List.mergeSort_perm records (byExact nlat nlng)).map _
  have hsortL : ((records.map (fun rec => withDistance rec nlat nlng)).mergeSort
      byDistance).Pairwise (fun a b => a.distanceMeters ≤ b.distanceMeters) := by
    have := @List.sorted_mergeSort _ byDistance byDistance_trans byDistance_total
      (records.map (fun rec => withDistance rec nlat nlng))
    refine List.Pairwise.imp ?_ this
    intro a b hab
    simpa only [byDistance, decide_eq_true_eq] using hab
  have hsortR : ((records.mergeSort (byExact nlat nlng)).map
      (fun rec => withDistance rec nlat nlng)).Pairwise
      (fun a b => a.distanceMeters ≤ b.distanceMeters) := by
    rw [List.pairwise_map]
    have := @List.sorted_mergeSort _ (byExact nlat nlng) (byExact_trans _ _)
      (byExact_total _ _) records
    refine List.Pairwise.imp ?_ this
    intro a b hab
    simp only [byExact, decide_eq_true_eq] at hab
    simp only [withDistance, computeDistance]
    exact jsRound_mono hab
  have hneL := (List.Perm.pairwise_iff hsymm hpL).mpr hdist
  have hneR := (List.Perm.pairwise_iff hsymm hpR).mpr hdist
  have hstrictL := (hsortL.and hneL).imp
    (fun hab => lt_of_le_of_ne hab.1 hab.2)
  have hstrictR := (hsortR.and hneR).imp
    (fun hab => lt_of_le_of_ne hab.1 hab.2)
  haveI : IsAntisymm NearestLocationResult
      (fun a b => a.distanceMeters < b.distanceMeters) :=
    ⟨fun a b h h2 => absurd (lt_trans h h2) (lt_irrefl _)⟩
  exact List.eq_of_perm_of_sorted (hpL.trans hpR.symm) hstrictL hstrictR

/-- On the equator, the haversine distance from the origin to longitude
`lam ∈ [0, 180)` degrees is exactly `R·lam·π/180`. -/
lemma greatCircle_equator (lam : ℝ) (h0 : 0 ≤ lam) (h1 : lam < 180) :
    greatCircleMeters 0 0 0 lam = 6371000 * (lam * Real.pi / 180) := by
  have hpi := Real.pi_pos
  have hθ0 : 0 ≤ lam * Real.pi / 360 :=
    div_nonneg (mul_nonneg h0 hpi.le) (by norm_num)
  have hθlt : lam * Real.pi / 360 < Real.pi / 2 := by
    rw [div_lt_div_iff₀ (by norm_num) (by norm_num)]
    nlinarith [mul_pos (show (0 : ℝ) < 180 - lam by linarith) hpi]
  simp only [greatCircleMeters, toRadians, EARTH_RADIUS_METERS]
  rw [show ((0 : ℝ) - 0) * Real.pi / 180 / 2 = 0 from by ring]
  rw [show ((0 : ℝ)) * Real.pi / 180 = 0 from by ring]
  rw [show (lam - 0) * Real.pi / 180 / 2 = lam * Real.pi / 360 from by ring]
  rw [Real.sin_zero, Real.cos_zero]
  rw [show (0 : ℝ) ^ 2 + 1 * 1 * Real.sin (lam * Real.pi / 360) ^ 2 =
    Real.sin (lam * Real.pi / 360) ^ 2 from by ring]
  have hsin : Real.sqrt (Real.sin (lam * Real.pi / 360) ^ 2) =
      Real.sin (lam * Real.pi / 360) :=
    Real.sqrt_sq (Real.sin_nonneg_of_nonneg_of_le_pi hθ0 (by linarith))
  have hcos2 : 1 - Real.sin (lam * Real.pi / 360) ^ 2 =
      Real.cos (lam * Real.pi / 360) ^ 2 := by
    have := Real.sin_sq_add_cos_sq (lam * Real.pi / 360)
    linarith
  have hcospos : 0 < Real.cos (lam * Real.pi / 360) :=
    Real.cos_pos_of_mem_Ioo ⟨by linarith, hθlt⟩
  rw [hsin, hcos2, Real.sqrt_sq hcospos.le]
  rw [jsAtan2, if_pos hcospos]
  rw [← Real.tan_eq_sin_div_cos, Real.arctan_tan (by linarith) hθlt]
  ring

/-- Tiny equatorial distances (below about 0.28 m) round to 0 meters. -/
lemma computeDistance_equator_zero (lam : ℝ) (h0 : 0 ≤ lam) (h1 : lam ≤ 1 / 400000) :
    computeDistance 0 0 0 lam = 0 := by
  have hlt : lam < 180 := by linarith
  rw [computeDistance, greatCircle_equator lam h0 hlt, jsRound]
  have hpiu := Real.pi_lt_d6
  have hpil := Real.pi_pos
  have hle : lam * Real.pi ≤ (1 / 400000) * 3.141593 :=
    mul_le_mul h1 hpiu.le hpil.le (by norm_num)
  have hge : 0 ≤ lam * Real.pi := mul_nonneg h0 hpil.le
  rw [Int.floor_eq_zero_iff, Set.mem_Ico]
  constructor
  · nlinarith [hge]
  · nlinarith [hle]

lemma findNearestQuery_single (rec : LocationRecord) (stats0 : Option LocationIndexStats)
    (lat : ℝ) (lng : JSNum) (limit : ℝ) (h : (jsNeighbors limit).toNat = 1) :
    findNearestQuery ⟨[rec], false, stats0⟩ lat lng limit =
      [withDistance rec (clamp lat (-90) 90) (normalizeLng lng)] := by
  rw [findNearestQuery_of_ne (by simp)]
  rw [if_neg (by simp)]
  rw [linearNearest, h]
  rw [List.map_cons, List.map_nil]
  rw [List.mergeSort_of_sorted (List.pairwise_singleton _ _)]
  rfl

/-- A one-record fixture used to instantiate the universally quantified
theorems at a concrete input. -/
def sampleRecord : LocationRecord :=
{ id := "A", name := "Alpha", level := none, latitude := 0, longitude := 0,
  iso639P3code := none, countryIds := [], metadata := [] }

def sampleState : ProcState :=
{ records := [sampleRecord], index := false, stats := none }

/-- Two records on the equator, 0.111 m and 0.222 m from the origin:
both distances round to 0 m while the exact distances differ.  The
farther one (`cexB`) is listed first. -/
noncomputable def cexA : LocationRecord :=
{ id := "A", name := "A", level := none, latitude := 0, longitude := 1 / 1000000,
  iso639P3code := none, countryIds := [], metadata := [] }

noncomputable def cexB : LocationRecord :=
{ id := "B", name := "B", level := none, latitude := 0, longitude := 1 / 500000,
  iso639P3code := none, countryIds := [], metadata := [] }

noncomputable def cexDegraded : ProcState :=
{ records := [cexB, cexA], index := false, stats := none }

noncomputable def cexTree : ProcState :=
{ records := [cexB, cexA], index := true, stats := none }

lemma jsNeighbors_two : (jsNeighbors 2).toNat = 2 := by
  rw [jsNeighbors_eq, show ⌊(2 : ℝ)⌋ = 2 from by norm_num]
  decide

lemma cex_distanceA : (withDistance cexA 0 0).distanceMeters = 0 := by
  show computeDistance 0 0 cexA.latitude cexA.longitude = 0
  show computeDistance 0 0 0 (1 / 1000000) = 0
  exact computeDistance_equator_zero _ (by norm_num) (by norm_num)

lemma cex_distanceB : (withDistance cexB 0 0).distanceMeters = 0 := by
  show computeDistance 0 0 cexB.latitude cexB.longitude = 0
  show computeDistance 0 0 0 (1 / 500000) = 0
  exact computeDistance_equator_zero _ (by norm_num) (by norm_num)

lemma cex_exact_lt :
    greatCircleMeters 0 0 cexA.latitude cexA.longitude <
      greatCircleMeters 0 0 cexB.latitude cexB.longitude := by
  show greatCircleMeters 0 0 0 (1 / 1000000) < greatCircleMeters 0 0 0 (1 / 500000)
  rw [greatCircle_equator _ (by norm_num) (by norm_num),
    greatCircle_equator _ (by norm_num) (by norm_num)]
  nlinarith [Real.pi_pos]

/-- In the degraded state, the stale-order pair comes back in load
order: both rounded distances are 0, and the stable sort keeps
`[cexB, cexA]`. -/
lemma cex_linear_eval : findNearestQuery cexDegraded 0 (JSNum.fin 0) 2 =
    [withDistance cexB 0 0, withDistance cexA 0 0] := by
  rw [findNearestQuery_of_ne (by simp [cexDegraded])]
  rw [if_neg (by simp [cexDegraded])]
  rw [clamp_zero, normalizeLng_zero]
  rw [show cexDegraded.records = [cexB, cexA] from rfl]
  rw [linearNearest, jsNeighbors_two]
  rw [List.map_cons, List.map_cons, List.map_nil]
  have hsorted : List.Pairwise (fun a b => byDistance a b = true)
      [withDistance cexB 0 0, withDistance cexA 0 0] := by
    refine List.pairwise_cons.mpr ⟨?_, List.pairwise_singleton _ _⟩
    intro c hc
    rw [List.mem_singleton] at hc
    subst hc
    rw [byDistance, cex_distanceA, cex_distanceB]
    rfl
  rw [List.mergeSort_of_sorted hsorted]
  rfl

/-- In the tree-backed state, the spec-modelled index orders by exact
distance, returning `[cexA, cexB]`. -/
lemma cex_tree_eval : findNearestQuery cexTree 0 (JSNum.fin 0) 2 =
    [withDistance cexA 0 0, withDistance cexB 0 0] := by
  rw [findNearestQuery_of_ne (by simp [cexTree])]
  rw [if_pos (show cexTree.index = true from rfl)]
  rw [clamp_zero, normalizeLng_zero]
  rw [show cexTree.records = [cexB, cexA] from rfl]
  rw [geokdbushAround, jsNeighbors_two]
  have hfalse : byExact 0 0 cexB cexA = false := by
    rw [byExact]
    exact decide_eq_false (not_le.mpr cex_exact_lt)
  rw [mergeSort_pair (byExact 0 0) (byExact_trans 0 0) (byExact_total 0 0) cexB cexA hfalse]
  rfl

lemma probeLoop_eq_find? (fsExists : String → Bool) (l : List String) :
    probeLoop fsExists l = l.find? fsExists := by
  induction l with
  | nil => rfl
  | cons c rest ih =>
    rw [probeLoop, List.find?]
    by_cases h : fsExists c = true
    · rw [if_pos h, h]
    · rw [if_neg h, ih]
      rcases h2 : fsExists c with _ | _
      · rfl
      · exact absurd h2 h

/-- An environment whose load attempt always fails (no CSV source can
be resolved or read). -/
def failEnv : BuildEnv :=
{ N := fun _ => none, outcome := LoadOutcome.failure, csvPath := "", indexOk := false,
  elapsed := 0, now := 0 }

/-- The constructor-time state of the service. -/
def initialState : ProcState :=
{ records := [], index := false, stats := none }

/-- One CSV row with valid numeric coordinates. -/
def succRows : List CsvRow := [[("latitude", "1"), ("longitude", "2")]]

noncomputable def succEnv : BuildEnv :=
{ N := fun _ => some 0, outcome := LoadOutcome.success succRows, csvPath := "p",
  indexOk := true, elapsed := 0, now := 0 }

/-- A `Number` model under which exactly the string `"x"` is
non-numeric. -/
noncomputable def exampleN : String → Option ℝ :=
fun s => if s = "x" then none else some 0

/-- Five rows, two of which carry a non-numeric coordinate. -/
def exampleRows : List CsvRow :=
[[("latitude", "1"), ("longitude", "2")],
 [("latitude", "x"), ("longitude", "2")],
 [("latitude", "1"), ("longitude", "2")],
 [("latitude", "1"), ("longitude", "x")],
 [("latitude", "1"), ("longitude", "2")]]

def c9Stats : LocationIndexStats :=
{ sourcePath := "p", totalRows := 0, indexedRows := 0, skippedRows := 0,
  buildDurationMs := 0, lastLoadedAt := 0, usingSpatialIndex := true }

/-- A Ready state reachable from a successful build over an empty
dataset: stats are set, the index is built, no records. -/
def c9Ready : ProcState :=
{ records := [], index := true, stats := some c9Stats }

def c9Env : BuildEnv :=
{ N := fun _ => none, outcome := LoadOutcome.success [], csvPath := "p", indexOk := true,
  elapsed := 0, now := 1 }

/-- C1 (counterexample): the claim says at most one load pass / build
attempt occurs per process lifetime, with a failed load cached.  In the
code, `ensureReady` only short-circuits on non-empty `records` and
clears `loadingPromise` when the build settles, so after a load-level
failure a second sequential `initIndex`/`ensureReady` call runs the
whole build again: two calls perform two build attempts, not at most
one. -/
theorem claim_C1_counterexample :
    (runEnsure failEnv 2 initialState).2 = 2 ∧
      ¬((runEnsure failEnv 2 initialState).2 ≤ 1) := by
  constructor
  · rfl
  · rw [show (runEnsure failEnv 2 initialState).2 = 2 from rfl]
    decide

/-- C1 (amended): the build result is memoized only through the
non-empty `records` check — after a build that indexed at least one
record, any number of further `ensureReady`/`initIndex` calls perform
zero additional build attempts and leave the memoized state untouched;
after a failed load (or a load with zero indexed rows) the next call
re-runs the build. -/
theorem claim_C1 : ∀ (env : BuildEnv) (rows : List CsvRow) (n : ℕ),
    env.outcome = LoadOutcome.success rows → (loadRows env.N rows).1 ≠ [] →
    runEnsure env (n + 1) initialState =
      (buildIndexState env.N rows env.csvPath env.indexOk env.elapsed env.now, 1) := by
  intro env rows n hout hne
  have hstep : ensureReadyStep env initialState =
      (buildIndexState env.N rows env.csvPath env.indexOk env.elapsed env.now, 1, false) := by
    simp only [ensureReadyStep, initialState, hout]
  have hne' : (buildIndexState env.N rows env.csvPath env.indexOk env.elapsed
      env.now).records ≠ [] := hne
  rw [runEnsure, hstep, runEnsure_of_ne env n _ hne']
  rfl

/-- C1 witness: a successful one-row load followed by two more calls —
exactly one build attempt in total. -/
theorem claim_C1_witness :
    succEnv.outcome = LoadOutcome.success succRows ∧
      (loadRows succEnv.N succRows).1 ≠ [] ∧
      runEnsure succEnv 3 initialState =
        (buildIndexState succEnv.N succRows succEnv.csvPath succEnv.indexOk
          succEnv.elapsed succEnv.now, 1) := by
  have hne : (loadRows succEnv.N succRows).1 ≠ [] := by
    intro h
    have hlen : (loadRows succEnv.N succRows).1.length = 1 := rfl
    rw [h] at hlen
    exact absurd hlen (by decide)
  exact ⟨rfl, hne, claim_C1 succEnv succRows 2 rfl hne⟩

/-- C2: every result returned by the query path carries a
`distanceMeters` equal to the spec's haversine formula (R = 6371000 m,
degrees converted to radians, rounded to the nearest whole meter)
evaluated between the normalized query point and the result's stored
latitude/longitude. -/
theorem claim_C2 : ∀ (st : ProcState) (lat : ℝ) (lng : JSNum) (limit : ℝ)
    (r : NearestLocationResult), r ∈ findNearestQuery st lat lng limit →
    r.distanceMeters =
      specHaversineMeters (clamp lat (-90) 90) (normalizeLng lng)
        r.latitude r.longitude := by
  intro st lat lng limit r h
  obtain ⟨rec, _, hr⟩ := findNearestQuery_mem h
  subst hr
  exact computeDistance_eq_spec _ _ _ _

lemma jsNeighbors_one : (jsNeighbors 1).toNat = 1 := by
  rw [jsNeighbors_eq, show ⌊(1 : ℝ)⌋ = 1 from by norm_num]
  decide

/-- C2 witness: a concrete one-record query whose single result
satisfies the distance identity. -/
theorem claim_C2_witness :
    withDistance sampleRecord (clamp 0 (-90) 90) (normalizeLng (JSNum.fin 0)) ∈
        findNearestQuery sampleState 0 (JSNum.fin 0) 1 ∧
      (withDistance sampleRecord (clamp 0 (-90) 90)
          (normalizeLng (JSNum.fin 0))).distanceMeters =
        specHaversineMeters (clamp 0 (-90) 90) (normalizeLng (JSNum.fin 0))
          (withDistance sampleRecord (clamp 0 (-90) 90)
            (normalizeLng (JSNum.fin 0))).latitude
          (withDistance sampleRecord (clamp 0 (-90) 90)
            (normalizeLng (JSNum.fin 0))).longitude := by
  have hmem : withDistance sampleRecord (clamp 0 (-90) 90) (normalizeLng (JSNum.fin 0)) ∈
      findNearestQuery sampleState 0 (JSNum.fin 0) 1 := by
    rw [show findNearestQuery sampleState 0 (JSNum.fin 0) 1 =
      [withDistance sampleRecord (clamp 0 (-90) 90) (normalizeLng (JSNum.fin 0))] from
      findNearestQuery_single sampleRecord none 0 (JSNum.fin 0) 1 jsNeighbors_one]
    exact List.mem_singleton.mpr rfl
  exact ⟨hmem, claim_C2 sampleState 0 (JSNum.fin 0) 1 _ hmem⟩

/-- C3: for every query against any service state (tree-backed or
degraded), the result sequence is sorted non-decreasing by
`distanceMeters`. -/
theorem claim_C3 : ∀ (st : ProcState) (lat : ℝ) (lng : JSNum) (limit : ℝ),
    (findNearestQuery st lat lng limit).Pairwise
      (fun a b => a.distanceMeters ≤ b.distanceMeters) :=
  findNearestQuery_sorted

/-- C4 (counterexample): for the fractional limit 1/2 (positive, so not
covered by the claim's "non-positive defaults to 1" carve-out) the code
floors it to 0, falls back to 1 via `|| 1`, and returns one result on a
one-record index — more than the claimed bound
`min(limit, 50, totalIndexed) = 1/2`. -/
theorem claim_C4_counterexample :
    (findNearestQuery sampleState 0 (JSNum.fin 0) (1 / 2)).length = 1 ∧
      ¬(((findNearestQuery sampleState 0 (JSNum.fin 0) (1 / 2)).length : ℝ) ≤
        min (1 / 2 : ℝ) (min 50 (sampleState.records.length : ℝ))) := by
  have h1 : (jsNeighbors (1 / 2)).toNat = 1 := by
    rw [jsNeighbors_eq, show ⌊(1 / 2 : ℝ)⌋ = 0 from by norm_num]
    decide
  have hq : findNearestQuery sampleState 0 (JSNum.fin 0) (1 / 2) =
      [withDistance sampleRecord (clamp 0 (-90) 90) (normalizeLng (JSNum.fin 0))] :=
    findNearestQuery_single sampleRecord none 0 (JSNum.fin 0) (1 / 2) h1
  rw [hq]
  constructor
  · rfl
  · rw [show ((sampleState.records.length : ℕ) : ℝ) = 1 from by norm_num [sampleState]]
    norm_num

/-- C4 (amended): `findNearest` returns at most
`min(max(⌊limit⌋, 1), 50, totalIndexed)` results (for `limit` strictly
between 0 and 1 the floored value 0 is replaced by the default 1; the
claimed bound `min(limit, 50, totalIndexed)` holds verbatim whenever
`limit ≥ 1`), and with zero records loaded the result is the empty
sequence. -/
theorem claim_C4 :
    (∀ (st : ProcState) (lat : ℝ) (lng : JSNum) (limit : ℝ),
      (findNearestQuery st lat lng limit).length ≤
        min (min (max ⌊limit⌋ 1) 50).toNat st.records.length) ∧
    ∀ (idx : Bool) (stats0 : Option LocationIndexStats) (lat : ℝ) (lng : JSNum)
      (limit : ℝ), findNearestQuery ⟨[], idx, stats0⟩ lat lng limit = [] := by
  constructor
  · intro st lat lng limit
    have h := findNearestQuery_length st lat lng limit
    rwa [jsNeighbors_eq] at h
  · intro idx stats0 lat lng limit
    exact findNearestQuery_nil rfl lat lng limit

/-- C5: coordinates are never rejected — latitude is clamped into
[-90, 90], longitude is normalized into [-180, 180), and the query
(lat = 95, lng = 190) behaves exactly as the query
(lat = 90, lng = -170). -/
theorem claim_C5 :
    (∀ lat : ℝ, clamp lat (-90) 90 ∈ Set.Icc (-90 : ℝ) 90) ∧
    (∀ lng : JSNum, normalizeLng lng ∈ Set.Ico (-180 : ℝ) 180) ∧
    ∀ (st : ProcState) (limit : ℝ),
      findNearestQuery st 95 (JSNum.fin 190) limit =
        findNearestQuery st 90 (JSNum.fin (-170)) limit := by
  refine ⟨fun lat => clamp_mem lat (-90) 90 (by norm_num), normalizeLng_mem, ?_⟩
  intro st limit
  rw [findNearestQuery, findNearestQuery, clamp_95, clamp_90, normalizeLng_190,
    normalizeLng_neg170]

/-- C6 (counterexample): with two records 0.111 m and 0.222 m from the
query point (both rounding to `distanceMeters = 0`) loaded
farther-first, the degraded linear scan — a stable sort on the rounded
distances — keeps load order, while the tree-backed path orders by
exact distance, so the two paths return differently ordered
sequences on an identical dataset. -/
theorem claim_C6_counterexample :
    findNearestQuery cexDegraded 0 (JSNum.fin 0) 2 ≠
      findNearestQuery cexTree 0 (JSNum.fin 0) 2 := by
  rw [cex_linear_eval, cex_tree_eval]
  intro h
  injection h with h1 h2
  have h3 := congrArg (fun r : NearestLocationResult => r.longitude) h1
  have h4 : (1 / 500000 : ℝ) = 1 / 1000000 := h3
  norm_num at h4

/-- C6 (amended): after a build whose index construction failed, the
service is in degraded mode (`index` cleared, stats reporting
`usingSpatialIndex = false`) and remains queryable; and whenever the
rounded annotated distances of the dataset are pairwise distinct, the
degraded `findNearest` returns exactly the sequence the tree-backed
path would return (on rounding ties the orders may differ: the linear
scan is stable in load order, the tree orders by exact distance). -/
theorem claim_C6 : ∀ (N : String → Option ℝ) (rows : List CsvRow) (csvPath : String)
    (elapsed now : ℕ) (lat : ℝ) (lng : JSNum) (limit : ℝ),
    ((buildIndexState N rows csvPath false elapsed now).index = false ∧
      (buildIndexState N rows csvPath false elapsed now).stats.map
        (fun s => s.usingSpatialIndex) = some false) ∧
    (((loadRows N rows).1.map (fun rec =>
        withDistance rec (clamp lat (-90) 90) (normalizeLng lng))).Pairwise
        (fun a b => a.distanceMeters ≠ b.distanceMeters) →
      findNearestQuery (buildIndexState N rows csvPath false elapsed now) lat lng limit =
        findNearestQuery (buildIndexState N rows csvPath true elapsed now)
          lat lng limit) := by
  intro N rows csvPath elapsed now lat lng limit
  refine ⟨⟨rfl, rfl⟩, ?_⟩
  intro hdist
  by_cases hrec : (buildIndexState N rows csvPath false elapsed now).records = []
  · rw [findNearestQuery_nil hrec,
      findNearestQuery_nil
        (show (buildIndexState N rows csvPath true elapsed now).records = [] from hrec)]
  · rw [findNearestQuery_of_ne hrec,
      findNearestQuery_of_ne
        (show (buildIndexState N rows csvPath true elapsed now).records ≠ [] from hrec)]
    rw [if_neg (show ¬((buildIndexState N rows csvPath false elapsed now).index = true)
      from Bool.false_ne_true)]
    rw [if_pos (show (buildIndexState N rows csvPath true elapsed now).index = true
      from rfl)]
    exact linear_eq_tree ((loadRows N rows).1) (clamp lat (-90) 90) (normalizeLng lng)
      (jsNeighbors limit).toNat hdist

/-- C6 witness: on a one-row dataset the distinctness hypothesis holds
trivially and the degraded and tree-backed paths agree. -/
theorem claim_C6_witness :
    ((loadRows succEnv.N succRows).1.map (fun rec =>
        withDistance rec (clamp 0 (-90) 90) (normalizeLng (JSNum.fin 0)))).Pairwise
      (fun a b => a.distanceMeters ≠ b.distanceMeters) ∧
    findNearestQuery (buildIndexState succEnv.N succRows "p" false 0 0) 0
        (JSNum.fin 0) 1 =
      findNearestQuery (buildIndexState succEnv.N succRows "p" true 0 0) 0
        (JSNum.fin 0) 1 := by
  have hp : ((loadRows succEnv.N succRows).1.map (fun rec =>
      withDistance rec (clamp 0 (-90) 90) (normalizeLng (JSNum.fin 0)))).Pairwise
      (fun a b => a.distanceMeters ≠ b.distanceMeters) := by
    have hlen : ((loadRows succEnv.N succRows).1.map (fun rec =>
        withDistance rec (clamp 0 (-90) 90) (normalizeLng (JSNum.fin 0)))).length = 1 := by
      rw [List.length_map]
      rfl
    obtain ⟨a, ha⟩ := List.length_eq_one.mp hlen
    rw [ha]
    exact List.pairwise_singleton _ _
  exact ⟨hp, (claim_C6 succEnv.N succRows "p" 0 0 0 (JSNum.fin 0) 1).2 hp⟩

/-- C7: rows with a missing, empty, or non-numeric coordinate — and
only those — are skipped and excluded while the load continues, the
counters always satisfy `seen = indexed + skipped`, and the 5-row
fixture with 2 bad rows yields seen = 5, indexed = 3, skipped = 2. -/
theorem claim_C7 :
    (∀ (N : String → Option ℝ) (rows : List CsvRow),
      (loadRows N rows).2.1 = rows.length ∧
      (loadRows N rows).2.1 = (loadRows N rows).1.length + (loadRows N rows).2.2 ∧
      (loadRows N rows).1 = rows.filterMap (toLocationRecord N) ∧
      ∀ row : CsvRow, toLocationRecord N row = none ↔
        invalidCoordField N (getField row "latitude") ∨
          invalidCoordField N (getField row "longitude")) ∧
    (loadRows exampleN exampleRows).2.1 = 5 ∧
      (loadRows exampleN exampleRows).1.length = 3 ∧
      (loadRows exampleN exampleRows).2.2 = 2 := by
  refine ⟨?_, rfl, rfl, rfl⟩
  intro N rows
  exact ⟨loadRows_total N rows, loadRows_balance N rows, loadRows_records N rows,
    fun row => toLocationRecord_none_iff N row⟩

/-- C8: source-path resolution probes the ordered candidate list
(configured override first, then the defaults) returning the first
existing candidate; a configured-but-missing override silently falls
through to the default probes; and when nothing exists the failure
carries every probed path. -/
theorem claim_C8 : ∀ (resolvePath : List String → String) (fsExists : String → Bool)
    (cwd dirname p : String), p ≠ "" →
    (probeLoop fsExists (resolveCandidates resolvePath cwd dirname (some p)) =
      (resolveCandidates resolvePath cwd dirname (some p)).find? fsExists) ∧
    (fsExists (resolvePath [p]) = true →
      resolveCsvPath resolvePath fsExists cwd dirname (some p) =
        Except.ok (resolvePath [p])) ∧
    (fsExists (resolvePath [p]) = false →
      probeLoop fsExists (resolveCandidates resolvePath cwd dirname (some p)) =
        probeLoop fsExists (resolveCandidates resolvePath cwd dirname none)) ∧
    ((∀ c ∈ resolveCandidates resolvePath cwd dirname (some p), fsExists c = false) →
      resolveCsvPath resolvePath fsExists cwd dirname (some p) =
        Except.error (resolveCandidates resolvePath cwd dirname (some p))) := by
  intro resolvePath fsExists cwd dirname p hp
  have hcand : resolveCandidates resolvePath cwd dirname (some p) =
      resolvePath [p] :: resolveCandidates resolvePath cwd dirname none := by
    rw [resolveCandidates, resolveCandidates, if_neg hp]
    rfl
  refine ⟨probeLoop_eq_find? fsExists _, ?_, ?_, ?_⟩
  · intro hyes
    rw [resolveCsvPath, hcand, probeLoop, if_pos hyes]
  · intro hno
    rw [hcand, probeLoop, if_neg (by rw [hno]; exact Bool.false_ne_true)]
  · intro hnone
    rw [resolveCsvPath]
    rw [show probeLoop fsExists (resolveCandidates resolvePath cwd dirname (some p)) =
      none from by
        rw [probeLoop_eq_find? fsExists _]
        exact List.find?_eq_none.mpr (fun x hx => by rw [hnone x hx]; exact Bool.false_ne_true)]

/-- C8 witness: no candidate exists, the override is set — resolution
fails with the full probed list. -/
theorem claim_C8_witness :
    ("override.csv" ≠ "") ∧
    ((probeLoop (fun _ => false)
        (resolveCandidates (String.intercalate "/") "cwd" "dir" (some "override.csv")) =
      (resolveCandidates (String.intercalate "/") "cwd" "dir"
        (some "override.csv")).find? (fun _ => false)) ∧
    ((fun _ => false : String → Bool) (String.intercalate "/" ["override.csv"]) = true →
      resolveCsvPath (String.intercalate "/") (fun _ => false) "cwd" "dir"
          (some "override.csv") =
        Except.ok (String.intercalate "/" ["override.csv"])) ∧
    ((fun _ => false : String → Bool) (String.intercalate "/" ["override.csv"]) = false →
      probeLoop (fun _ => false)
          (resolveCandidates (String.intercalate "/") "cwd" "dir" (some "override.csv")) =
        probeLoop (fun _ => false)
          (resolveCandidates (String.intercalate "/") "cwd" "dir" none)) ∧
    ((∀ c ∈ resolveCandidates (String.intercalate "/") "cwd" "dir" (some "override.csv"),
        (fun _ => false : String → Bool) c = false) →
      resolveCsvPath (String.intercalate "/") (fun _ => false) "cwd" "dir"
          (some "override.csv") =
        Except.error (resolveCandidates (String.intercalate "/") "cwd" "dir"
          (some "override.csv")))) := by
  refine ⟨by decide, ?_⟩
  exact claim_C8 (String.intercalate "/") (fun _ => false) "cwd" "dir" "override.csv"
    (by decide)

/-- C9 (counterexample): the claim says queries never mutate a ready
state.  In the Ready state reachable from a successful build over an
empty dataset (stats set, index built, zero records), a later
`findNearest` re-runs the whole build and overwrites `stats` with fresh
wall-clock values, so the state after the call differs. -/
theorem claim_C9_counterexample :
    (findNearestFull c9Env c9Ready 0 (JSNum.fin 0) 1).2.1 ≠ c9Ready := by
  intro h
  have h2 := congrArg ProcState.stats h
  have h3 : (findNearestFull c9Env c9Ready 0 (JSNum.fin 0) 1).2.1.stats =
      some { sourcePath := "p", totalRows := 0, indexedRows := 0, skippedRows := 0,
             buildDurationMs := 0, lastLoadedAt := 1, usingSpatialIndex := true } := rfl
  rw [h3] at h2
  exact absurd h2 (by decide)

/-- C9 (amended): once at least one record is loaded, `findNearest`
leaves the service state exactly as it was (the linear path sorts a
copy of the records) and does not reject, and `getStats` returns the
stats without touching the state; with zero records loaded,
`findNearest` re-runs the build and may overwrite `stats`. -/
theorem claim_C9 : ∀ (env : BuildEnv) (st : ProcState) (lat : ℝ) (lng : JSNum)
    (limit : ℝ), st.records ≠ [] →
    (findNearestFull env st lat lng limit).2.1 = st ∧
      (findNearestFull env st lat lng limit).2.2 = false ∧
      getStatsST st = (st.stats, st) := by
  intro env st lat lng limit h
  obtain ⟨h1, h2⟩ := findNearestFull_state env st lat lng limit h
  exact ⟨h1, h2, rfl⟩

/-- C9 witness: a one-record ready state is returned unchanged. -/
theorem claim_C9_witness :
    sampleState.records ≠ [] ∧
      (findNearestFull failEnv sampleState 0 (JSNum.fin 0) 1).2.1 = sampleState ∧
      (findNearestFull failEnv sampleState 0 (JSNum.fin 0) 1).2.2 = false ∧
      getStatsST sampleState = (sampleState.stats, sampleState) := by
  have h : sampleState.records ≠ [] := by simp [sampleState]
  exact ⟨h, claim_C9 failEnv sampleState 0 (JSNum.fin 0) 1 h⟩

/-- C10: a query whose longitude is non-finite behaves exactly as if
longitude 0 had been supplied — `normalizeLng` maps every non-finite
input to 0, which is also the normalization of longitude 0. -/
theorem claim_C10 : ∀ (st : ProcState) (lat : ℝ) (limit : ℝ) (lng : JSNum),
    lng.isFinite = false →
    findNearestQuery st lat lng limit = findNearestQuery st lat (JSNum.fin 0) limit := by
  intro st lat limit lng h
  have hn : normalizeLng lng = normalizeLng (JSNum.fin 0) := by
    cases lng with
    | fin v => simp [JSNum.isFinite] at h
    | nan => rw [normalizeLng_zero]; rfl
    | posInf => rw [normalizeLng_zero]; rfl
    | negInf => rw [normalizeLng_zero]; rfl
  rw [findNearestQuery, findNearestQuery, hn]

/-- C10 witness: a NaN-longitude query on a concrete state equals the
longitude-0 query. -/
theorem claim_C10_witness :
    JSNum.isFinite JSNum.nan = false ∧
      findNearestQuery sampleState 0 JSNum.nan 1 =
        findNearestQuery sampleState 0 (JSNum.fin 0) 1 :=
  ⟨rfl, claim_C10 sampleState 0 1 JSNum.nan rfl⟩

end LocationIndex
